import Mathlib

/-!
Verification development for the caching + HTML-scraping core of the
fpl/livefpl utility modules.

Embedded components (from `fpl/scripts/fpl_utils.py` and
`livefpl/scripts/livefpl_utils.py`):

* `LiveFPLUtils._parse_prices_html` — the regex-based price parser, modelled
  as explicit character scanners reproducing the behaviour of the three
  Python regular expressions used by the source (leftmost, non-overlapping
  `finditer` matches; greedy quantifiers with backtracking where the
  patterns allow it).
* `StatsTracker.increment_request` / `increment_api_fetch` — per-URL
  counters. The in-memory mapping is modelled as a total function with the
  `{"requests": 0, "api_fetches": 0}` default the source supplies on a
  missing key; disk persistence (`_save`, which swallows every failure) is
  not modelled, the in-memory copy being the authoritative state within a
  process.
* `FPLUtils.fetch_url_cached` / `LiveFPLUtils.fetch_prices_cached` — the
  two cached-retrieval façades, modelled as pure functions of an explicit
  environment (current time, cache-file state, remote outcome, cache-write
  outcome) returning the call result together with the updated stats and
  whether the remote fetch path executed.

Modelling conventions:
* Times are epoch seconds (`ℕ`); the process-local timezone is taken to be
  UTC, so `date.today()` / `datetime.fromtimestamp(t).date()` become
  `t / 86400` and `datetime.utcnow()` reads the same clock.
* Python `float` values are modelled exactly (a decimal-scientific pair
  plus `inf`/`-inf`/`nan`) rather than as IEEE doubles; no arithmetic is
  ever performed on them by the source, they are only carried.  Digits are ASCII (the source's `\d`
  also matches other Unicode decimal digits; those do not occur in the
  scraped pages).
* JSON documents are opaque payloads (`String`).
-/

/-- The null character, used as the out-of-range default when indexing. -/
def nullChar : Char := Char.ofNat 0

/-- Double-quote character. -/
def dquote : Char := Char.ofNat 34

/-- Single-quote character. -/
def squote : Char := Char.ofNat 39

/-- Character at index `i`, null when out of range (null never matches any
of the pattern characters below, so an out-of-range read simply fails the
pattern, exactly as running off the end does in the source's regexes). -/
def cAt (l : List Char) (i : ℕ) : Char := l.getD i nullChar

/-- Python `\s` on the ASCII range: space, tab, newline, CR, VT, FF. -/
def isPySpace (c : Char) : Bool :=
  c == ' ' || c == Char.ofNat 9 || c == Char.ofNat 10 || c == Char.ofNat 13 ||
  c == Char.ofNat 11 || c == Char.ofNat 12

/-- Membership in the quote class `["\']` of the source patterns. -/
def isQuote (c : Char) : Bool := c == dquote || c == squote

/-- Case-sensitive literal match of `lit` at position `i`. -/
def matchLitAt (l : List Char) (i : ℕ) (lit : List Char) : Bool :=
  decide (i + lit.length ≤ l.length) &&
    (List.range lit.length).all (fun k => cAt l (i + k) == cAt lit k)

/-- Case-insensitive literal match (the primary pattern is compiled with
`re.IGNORECASE`). -/
def matchLitCIAt (l : List Char) (i : ℕ) (lit : List Char) : Bool :=
  decide (i + lit.length ≤ l.length) &&
    (List.range lit.length).all
      (fun k => (cAt l (i + k)).toLower == (cAt lit k).toLower)

/-- Length of the whitespace run starting at `i` (`\s*`). -/
def wsLenFrom (l : List Char) (i : ℕ) : ℕ :=
  ((l.drop i).takeWhile isPySpace).length

/-- Length of the digit run starting at `i` (`\d*`). -/
def digitsFrom (l : List Char) (i : ℕ) : ℕ :=
  ((l.drop i).takeWhile Char.isDigit).length

/-- Numeric value of the `len` digits starting at `i` (Python `int(...)`). -/
def natFrom (l : List Char) (i len : ℕ) : ℕ :=
  (((l.drop i).take len).foldl (fun a c => a * 10 + (c.toNat - 48)) 0)

/-- Index of the first `>` at or after `i`, if any (the `[^>]*>` tail of the
primary pattern: the greedy `[^>]*` run followed by `>` always ends at the
first `>`). -/
def findGtFrom (l : List Char) (i : ℕ) : Option ℕ :=
  ((l.drop i).findIdx? (fun c => c == '>')).map (· + i)

def dataIdLit : List Char := "data-id".data
def dataNowLit : List Char := "data-now".data
def dataTonightLit : List Char := "data-tonight".data
def divLit : List Char := "<div".data

/-!
### Python `float()` coercion

`float(s)` on the attribute captures (which can contain neither whitespace
nor quotes, because the capturing class excludes them): optional sign, then
`inf`/`infinity`/`nan` case-insensitively, or a decimal literal with
optional fraction and exponent, with underscores allowed only between
digits (PEP 515).  Failure raises `ValueError`, which the source converts
to `None` — modelled as `Option.none`.
-/

/-- Exact decimal value `num * 10 ^ exp10`.  The parse of a float literal is
represented this way (rather than as `ℚ`) so that equality of parse results
is kernel-computable; the source never computes with the parsed floats, it
only carries them. -/
structure Sci where
  num : ℤ
  exp10 : ℤ
deriving DecidableEq, Repr

inductive PyFloat where
  | finite (s : Sci)
  | inf
  | negInf
  | nan
deriving DecidableEq, Repr

/-- Every underscore must sit between two digits. -/
def underscoresOk (cs : List Char) : Bool :=
  (List.range cs.length).all fun k =>
    !(cAt cs k == '_') ||
      (decide (0 < k) && (cAt cs (k - 1)).isDigit && (cAt cs (k + 1)).isDigit)

/-- Numeric value of a digit string (empty ⇒ 0). -/
def natOfDigits (cs : List Char) : ℕ :=
  cs.foldl (fun a c => a * 10 + (c.toNat - 48)) 0

/-- The decimal part `digits [. digits]` (at least one digit): the value of
the concatenated digits together with the number of fraction digits, so the
mantissa's value is `fst * 10 ^ (-snd)`. -/
def mantissaParts (cs : List Char) : Option (ℕ × ℕ) :=
  let dotIdx := cs.findIdx (fun c => c == '.')
  let ipart := cs.take dotIdx
  let fpart := cs.drop (dotIdx + 1)
  if ipart.all Char.isDigit && fpart.all Char.isDigit &&
      decide (0 < ipart.length + fpart.length) then
    some (natOfDigits (ipart ++ fpart), fpart.length)
  else
    none

/-- Optional sign then at least one digit (the exponent of a float literal). -/
def exponentVal (cs : List Char) : Option ℤ :=
  let (sgn, ds) : ℤ × List Char :=
    match cs with
    | c :: t => if c == '+' then (1, t) else if c == '-' then (-1, t) else (1, cs)
    | [] => (1, [])
  if ds.all Char.isDigit && decide (0 < ds.length) then
    some (sgn * (natOfDigits ds : ℤ))
  else
    none

/-- Model of Python `float(s)`: `none` exactly when the coercion raises
`ValueError`; otherwise the exact decimal value (the source stores the
nearest IEEE double but never computes with it). -/
def pyFloatChars (cs : List Char) : Option PyFloat :=
  let (sgn, rest) : ℤ × List Char :=
    match cs with
    | c :: t => if c == '+' then (1, t) else if c == '-' then (-1, t) else (1, cs)
    | [] => (1, [])
  let low := rest.map Char.toLower
  if low = "inf".data || low = "infinity".data then
    some (if sgn = 1 then PyFloat.inf else PyFloat.negInf)
  else if low = "nan".data then
    some PyFloat.nan
  else if underscoresOk rest then
    let rest' := rest.filter (fun c => !(c == '_'))
    let eIdx := rest'.findIdx (fun c => c == 'e' || c == 'E')
    let mant := rest'.take eIdx
    let expPart := rest'.drop (eIdx + 1)
    match mantissaParts mant with
    | none => none
    | some (m, fracLen) =>
      if decide (eIdx < rest'.length) then
        match exponentVal expPart with
        | none => none
        | some e => some (PyFloat.finite ⟨sgn * (m : ℤ), e - (fracLen : ℤ)⟩)
      else
        some (PyFloat.finite ⟨sgn * (m : ℤ), -(fracLen : ℤ)⟩)
  else
    none

/-!
### Attribute search

`re.search(r'data-now\s*=\s*["\']?([^"\'>\s]+)["\']?', text)` (and the same
with `data-tonight`), case-sensitive.  Leftmost match: try every start
position in order; at each, after the literal comes `\s* = \s*`, then the
optional opening quote — greedy, but if taking the quote leaves no legal
value character the engine backtracks to not taking it, upon which the
quote character itself (being in the excluded class) fails the position, so
the net behaviour is: quote taken when present, at least one
non-quote/non-`>`/non-space character required right after.  The capture is
the maximal run of legal value characters. -/

def tryAttrAt (w : List Char) (lit : List Char) (p : ℕ) : Option (List Char) :=
  if matchLitAt w p lit then
    let p1 := p + lit.length + wsLenFrom w (p + lit.length)
    if cAt w p1 == '=' then
      let p2 := p1 + 1 + wsLenFrom w (p1 + 1)
      let vstart := if isQuote (cAt w p2) then p2 + 1 else p2
      let v := (w.drop vstart).takeWhile
        (fun c => !(isQuote c || c == '>' || isPySpace c))
      if v.length = 0 then none else some v
    else none
  else none

/-- Leftmost successful attribute match anywhere in `w` (`re.search`). -/
def searchAttr (w : List Char) (lit : List Char) : Option (List Char) :=
  (List.range w.length).findSome? (tryAttrAt w lit)

/-!
### Primary strategy

`re.finditer(r"<div[^>]*data-id\s*=\s*['\"]?(?P<id>\d+)['\"]?[^>]*>", html,
re.IGNORECASE)`.  At a start position: the literal `<div`; then the greedy
`[^>]*` means the engine tries the *latest* occurrence of `data-id` before
the first `>` first, backtracking to earlier ones on failure; after the
literal: `\s* = \s*`, optional quote, at least one digit (the id capture,
maximal), optional quote, then `[^>]*>` ends the match at the first
following `>`.  `finditer` yields non-overlapping matches, resuming after
each match's end and advancing one position on failure. -/

/-- Complete a primary-pattern match given the position `j` of `data-id`;
returns the captured id and the match end (one past the closing `>`). -/
def tryDivCompletion (l : List Char) (j : ℕ) : Option (ℕ × ℕ) :=
  let p1 := j + 7 + wsLenFrom l (j + 7)
  if cAt l p1 == '=' then
    let p2 := p1 + 1 + wsLenFrom l (p1 + 1)
    let dstart := if isQuote (cAt l p2) then p2 + 1 else p2
    let dlen := digitsFrom l dstart
    if dlen = 0 then none
    else
      let q2 := dstart + dlen + (if isQuote (cAt l (dstart + dlen)) then 1 else 0)
      match findGtFrom l q2 with
      | some g => some (natFrom l dstart dlen, g + 1)
      | none => none
  else none

/-- Attempt a primary-pattern match starting exactly at `i`; returns the
captured id and the match end. -/
def tryDivAt (l : List Char) (i : ℕ) : Option (ℕ × ℕ) :=
  if matchLitCIAt l i divLit then
    let stop := match findGtFrom l (i + 4) with
      | some g => g
      | none => l.length
    let candidates :=
      ((List.range' (i + 4) (stop - (i + 4))).filter
        (fun j => matchLitCIAt l j dataIdLit)).reverse
    candidates.findSome? (tryDivCompletion l)
  else none

/-- One primary match: the full matched tag text (`m.group(0)`) and the id. -/
structure DivM where
  tag : List Char
  pid : ℕ
deriving DecidableEq, Repr

/-- The `finditer` scan for the primary pattern (fuel-driven; each step
either consumes a whole match — whose end is strictly beyond its start —
or advances one position, so `l.length + 1` units of fuel always suffice). -/
def divLoop (l : List Char) : ℕ → ℕ → List DivM
  | 0, _ => []
  | Nat.succ fuel, i =>
    if i < l.length then
      match tryDivAt l i with
      | some (pid, e) => ⟨(l.take e).drop i, pid⟩ :: divLoop l fuel e
      | none => divLoop l fuel (i + 1)
    else []

def divMatches (l : List Char) : List DivM := divLoop l (l.length + 1) 0

/-!
### Fallback strategy

`re.finditer(r'data-id\s*=\s*["\']?(\d+)["\']?', html)` (case-sensitive),
and for each match a 300-character window `html[start:start+300]` is
searched for the two attributes. -/

/-- Attempt a fallback-pattern match starting exactly at `i`; returns the
captured id and the match end. -/
def tryFbAt (l : List Char) (i : ℕ) : Option (ℕ × ℕ) :=
  if matchLitAt l i dataIdLit then
    let p1 := i + 7 + wsLenFrom l (i + 7)
    if cAt l p1 == '=' then
      let p2 := p1 + 1 + wsLenFrom l (p1 + 1)
      let dstart := if isQuote (cAt l p2) then p2 + 1 else p2
      let dlen := digitsFrom l dstart
      if dlen = 0 then none
      else
        let e := dstart + dlen + (if isQuote (cAt l (dstart + dlen)) then 1 else 0)
        some (natFrom l dstart dlen, e)
    else none
  else none

/-- One fallback match: its start position (`m.start()`) and the id. -/
structure FbM where
  start : ℕ
  pid : ℕ
deriving DecidableEq, Repr

def fbLoop (l : List Char) : ℕ → ℕ → List FbM
  | 0, _ => []
  | Nat.succ fuel, i =>
    if i < l.length then
      match tryFbAt l i with
      | some (pid, e) => ⟨i, pid⟩ :: fbLoop l fuel e
      | none => fbLoop l fuel (i + 1)
    else []

def fbMatches (l : List Char) : List FbM := fbLoop l (l.length + 1) 0

/-- The slice `html[start:start+300]`, the fallback's trailing search window. -/
def fbWindow (l : List Char) (s : ℕ) : List Char := (l.drop s).take 300

/-!
### Records, the two loops, deduplication and the parse result
-/

/-- One record `{"id": .., "pct_now": .., "pct_tonight": ..}` of the source. -/
structure PlayerRec where
  id : ℕ
  pct_now : Option PyFloat
  pct_tonight : Option PyFloat
deriving DecidableEq, Repr

/-- The record the primary loop body appends for one match: each attribute
is searched for inside the matched tag text and coerced, failure giving
`None`. -/
def recordOfDiv (m : DivM) : PlayerRec :=
  { id := m.pid
    pct_now := (searchAttr m.tag dataNowLit).bind pyFloatChars
    pct_tonight := (searchAttr m.tag dataTonightLit).bind pyFloatChars }

/-- The record the fallback loop body appends for one match: attributes are
searched for inside the 300-character window after the match start. -/
def recordOfFb (l : List Char) (m : FbM) : PlayerRec :=
  { id := m.pid
    pct_now := (searchAttr (fbWindow l m.start) dataNowLit).bind pyFloatChars
    pct_tonight := (searchAttr (fbWindow l m.start) dataTonightLit).bind pyFloatChars }

/-- The primary `for`-loop: `players.append(...)` per match. -/
def primRecords (l : List Char) : List PlayerRec :=
  (divMatches l).foldl (fun acc m => acc ++ [recordOfDiv m]) []

/-- The fallback `for`-loop. -/
def fbRecords (l : List Char) : List PlayerRec :=
  (fbMatches l).foldl (fun acc m => acc ++ [recordOfFb l m]) []

/-- The `players` list after both loops: the fallback loop runs (appending to the
still-empty list) only when the primary loop appended nothing. -/
def rawPlayers (l : List Char) : List PlayerRec :=
  let ps := primRecords l
  if ps.isEmpty then ps ++ fbRecords l else ps

/-- One step of the dedup loop: `if pid not in unique_players:
unique_players[pid] = p` — a Python dict preserves insertion order, so the
mapping is an append-if-absent list keyed by id. -/
def dedupStep (acc : List PlayerRec) (p : PlayerRec) : List PlayerRec :=
  if acc.any (fun q => q.id == p.id) then acc else acc ++ [p]

/-- The list `unique_players.values()` after iterating all raw records. -/
def dedupPlayers (ps : List PlayerRec) : List PlayerRec :=
  ps.foldl dedupStep []

/-- Result of `_parse_prices_html`.  `fetched_at` is
`datetime.utcnow().isoformat() + 'Z'` in the source; it is modelled by the
instant itself (ISO-8601 formatting of distinct instants is injective). -/
structure PricesResult where
  players : List PlayerRec
  fetched_at : ℕ
deriving DecidableEq, Repr

/-- The parser `LiveFPLUtils._parse_prices_html(html)`, called at instant `nowUtc`. -/
def parsePricesHtml (html : String) (nowUtc : ℕ) : PricesResult :=
  { players := dedupPlayers (rawPlayers html.data), fetched_at := nowUtc }

/-!
### Stats tracker

`StatsTracker` keeps `self._data : Dict[url, {"requests": int,
"api_fetches": int}]`.  `_data.get(url, {"requests": 0, "api_fetches": 0})`
supplies a zero entry for a missing key, so the observable counter state is
a total function with default `⟨0, 0⟩`.  `_save` swallows every failure and
does not affect the in-memory state; it is not modelled. -/

structure StatsEntry where
  requests : ℕ
  api_fetches : ℕ
deriving DecidableEq, Repr

abbrev Stats := String → StatsEntry

/-- The tracker's state right after `__init__` with no (or an unreadable)
stats file: an empty mapping. -/
def statsEmpty : Stats := fun _ => ⟨0, 0⟩

/-- Model of `StatsTracker.increment_request(url)`. -/
def increment_request (s : Stats) (url : String) : Stats :=
  fun u => if u = url then ⟨(s url).requests + 1, (s url).api_fetches⟩ else s u

/-- Model of `StatsTracker.increment_api_fetch(url)`. -/
def increment_api_fetch (s : Stats) (url : String) : Stats :=
  fun u => if u = url then ⟨(s url).requests, (s url).api_fetches + 1⟩ else s u

/-!
### The cached-retrieval façades

Each call is a pure function of an explicit environment describing the
world at call time: the clock, the cache file's existence / modification
time / readable content, the outcome the remote would produce, and whether
the cache write would succeed.  The result records the returned value (or
raised error), the updated stats and whether the remote fetch path ran.

Error taxonomy of the `except` chain.  `urllib.error.HTTPError` is a
subclass of `URLError`, and the `except URLError` clause comes first in
both façades, so the `HTTPError` raised for a non-200 status is captured by
the *network*-error branch; the dedicated API-error branch is unreachable.
-/

inductive FetchErr where
  | netErr
  | apiErr
  | dataErr
  | unexpectedErr
deriving DecidableEq, Repr

/-- Outcome of `request.urlopen` + body decode for the JSON variant. -/
inductive RemoteJson where
  | urlErr
  | httpErr (code : ℕ)
  | badJson
  | ok (doc : String)
deriving DecidableEq, Repr

/-- World state for one `fetch_url_cached` call.  `cacheContent = some doc`
means the cache file is readable and its body decodes (to the opaque
payload `doc`); `none` covers both an unreadable file and a
`json.JSONDecodeError` — the two `except ... pass` branches. -/
structure JsonEnv where
  now : ℕ
  cacheExists : Bool
  cacheMtime : ℕ
  cacheContent : Option String
  remote : RemoteJson
  writeOk : Bool
deriving DecidableEq, Repr

/-- The test `(date.today() - file_mod_date).days < self.cache_expiry_days`, with
dates as whole days since the epoch (UTC process timezone). -/
def jsonFresh (now mtime expiryDays : ℕ) : Bool :=
  decide (((now / 86400 : ℕ) : ℤ) - ((mtime / 86400 : ℕ) : ℤ) < (expiryDays : ℤ))

structure JsonCallResult where
  result : Except FetchErr String
  stats : Stats
  didRemoteFetch : Bool

/-- Model of `FPLUtils.fetch_url_cached(url, cache_key, force_refresh)` with
`self.cache_expiry_days = expiryDays`.  The cache write (`json.dump`) is
*not* wrapped in its own `try`, so its failure is captured by the trailing
`except Exception` and re-raised as the unexpected-error message, before
`increment_api_fetch` runs. -/
def fetchUrlCached (env : JsonEnv) (st : Stats) (url cacheKey : String)
    (forceRefresh : Bool) (expiryDays : ℕ) : JsonCallResult :=
  let st1 := increment_request st url
  match (if !forceRefresh && env.cacheExists &&
            jsonFresh env.now env.cacheMtime expiryDays
         then env.cacheContent else none) with
  | some doc => { result := .ok doc, stats := st1, didRemoteFetch := false }
  | none =>
    match env.remote with
    | .ok doc =>
      if env.writeOk then
        { result := .ok doc, stats := increment_api_fetch st1 url,
          didRemoteFetch := true }
      else
        { result := .error .unexpectedErr, stats := st1, didRemoteFetch := true }
    | .urlErr => { result := .error .netErr, stats := st1, didRemoteFetch := true }
    | .httpErr _ => { result := .error .netErr, stats := st1, didRemoteFetch := true }
    | .badJson => { result := .error .dataErr, stats := st1, didRemoteFetch := true }

/-- Outcome of `request.urlopen` for the HTML variant; the body is decoded
with `errors='ignore'`, which never fails, so `ok` carries the decoded
text. -/
inductive RemoteHtml where
  | urlErr
  | httpErr (code : ℕ)
  | ok (html : String)
deriving DecidableEq, Repr

/-- World state for one `fetch_prices_cached` call.  `cacheHtml = some s`
means the cache file is readable as UTF-8 text `s`; `none` is the swallowed
read failure. -/
structure HtmlEnv where
  now : ℕ
  cacheExists : Bool
  cacheMtime : ℕ
  cacheHtml : Option String
  remote : RemoteHtml
  writeOk : Bool
deriving DecidableEq, Repr

/-- The test `(datetime.utcnow() - datetime.fromtimestamp(mtime)).total_seconds()
< self.cache_expiry_hours * 3600` (UTC process timezone, so both clocks
agree). -/
def htmlFresh (now mtime expiryHours : ℕ) : Bool :=
  decide ((now : ℤ) - (mtime : ℤ) < (expiryHours : ℤ) * 3600)

structure HtmlCallResult where
  result : Except FetchErr PricesResult
  stats : Stats
  didRemoteFetch : Bool

/-- Model of `LiveFPLUtils.fetch_prices_cached(url, cache_key, force_refresh)` with
`self.cache_expiry_hours = expiryHours`.  On a fresh readable cache the raw
markup is re-parsed at the current instant.  The cache write after a fetch
sits in its own `try/except: pass`, so `writeOk` cannot influence the
outcome. -/
def fetchPricesCached (env : HtmlEnv) (st : Stats) (url cacheKey : String)
    (forceRefresh : Bool) (expiryHours : ℕ) : HtmlCallResult :=
  let st1 := increment_request st url
  match (if !forceRefresh && env.cacheExists &&
            htmlFresh env.now env.cacheMtime expiryHours
         then env.cacheHtml else none) with
  | some h => { result := .ok (parsePricesHtml h env.now), stats := st1,
                didRemoteFetch := false }
  | none =>
    match env.remote with
    | .ok h =>
      let _writeAttempted := env.writeOk
      { result := .ok (parsePricesHtml h env.now),
        stats := increment_api_fetch st1 url, didRemoteFetch := true }
    | .urlErr => { result := .error .netErr, stats := st1, didRemoteFetch := true }
    | .httpErr _ => { result := .error .netErr, stats := st1, didRemoteFetch := true }

/-!
## General lemmas

First-wins deduplication: invariants of the `dedupStep` fold.
-/

/-- The loop `for m in matches: players.append(record(m))` is `map`. -/
lemma foldl_append_eq_map {α β : Type} (f : α → β) :
    ∀ (xs : List α) (acc : List β),
      xs.foldl (fun a x => a ++ [f x]) acc = acc ++ xs.map f := by
  intro xs
  induction xs with
  | nil => intro acc; simp
  | cons x xs ih => intro acc; simp [List.foldl_cons, ih]

/-- Searching by id with `find?` succeeds exactly when some element has that id. -/
lemma find?_id_isSome (l : List PlayerRec) (i : ℕ) :
    (l.find? (fun p => p.id == i)).isSome = l.any (fun p => p.id == i) := by
  induction l with
  | nil => rfl
  | cons x xs ih =>
    cases h : (x.id == i) with
    | true => simp [List.find?_cons, h]
    | false => simp [List.find?_cons, h, ih]

lemma or_of_isSome {α : Type} (a b b' : Option α) (h : a.isSome = true) :
    a.or b = a.or b' := by
  cases a with
  | some x => rfl
  | none => simp [Option.isSome] at h

lemma dedupStep_of_present (acc : List PlayerRec) (x : PlayerRec)
    (h : acc.any (fun q => q.id == x.id) = true) : dedupStep acc x = acc := by
  simp [dedupStep, h]

lemma dedupStep_of_absent (acc : List PlayerRec) (x : PlayerRec)
    (h : acc.any (fun q => q.id == x.id) = false) :
    dedupStep acc x = acc ++ [x] := by
  simp only [dedupStep, h, Bool.false_eq_true, if_false]

/-- The record the dedup fold keeps for an id is the first raw record with
that id (generalised over the accumulator). -/
lemma find?_foldl_dedupStep (i : ℕ) :
    ∀ (xs acc : List PlayerRec),
      ((xs.foldl dedupStep acc).find? (fun p => p.id == i))
        = (acc.find? (fun p => p.id == i)).or (xs.find? (fun p => p.id == i)) := by
  intro xs
  induction xs with
  | nil => intro acc; simp
  | cons x xs ih =>
    intro acc
    rw [List.foldl_cons]
    cases h : acc.any (fun q => q.id == x.id) with
    | true =>
      rw [dedupStep_of_present acc x h, ih]
      cases hx : (x.id == i) with
      | true =>
        have hid : x.id = i := by simpa using hx
        have hsome : (acc.find? (fun p => p.id == i)).isSome = true := by
          rw [find?_id_isSome]
          simpa [hid] using h
        rw [List.find?_cons, hx]
        exact or_of_isSome _ _ _ hsome
      | false =>
        rw [List.find?_cons, hx]
    | false =>
      rw [dedupStep_of_absent acc x h, ih, List.find?_append, Option.or_assoc]
      congr 1
      cases hx : (x.id == i) with
      | true => simp [List.find?_cons, List.find?, hx]
      | false => simp [List.find?_cons, List.find?, hx]

/-- The dedup fold never introduces a duplicate id. -/
lemma nodup_foldl_dedupStep :
    ∀ (xs acc : List PlayerRec), ((acc.map PlayerRec.id).Nodup) →
      (((xs.foldl dedupStep acc).map PlayerRec.id).Nodup) := by
  intro xs
  induction xs with
  | nil => intro acc h; simpa using h
  | cons x xs ih =>
    intro acc h
    rw [List.foldl_cons]
    cases hmem : acc.any (fun q => q.id == x.id) with
    | true => rw [dedupStep_of_present acc x hmem]; exact ih acc h
    | false =>
      rw [dedupStep_of_absent acc x hmem]
      apply ih
      rw [List.map_append, List.nodup_append]
      refine ⟨h, List.nodup_singleton _, ?_⟩
      intro a ha hb
      simp only [List.map_cons, List.map_nil, List.mem_singleton] at hb
      rcases List.mem_map.mp ha with ⟨q, hq, hqa⟩
      have hne := List.any_eq_false.mp hmem q hq
      simp only [beq_iff_eq] at hne
      exact hne (hqa.trans hb)

/-- The dedup fold output is a subsequence of the input (order preserved). -/
lemma foldl_dedupStep_sublist :
    ∀ (xs acc : List PlayerRec), List.Sublist (xs.foldl dedupStep acc) (acc ++ xs) := by
  intro xs
  induction xs with
  | nil => intro acc; simp
  | cons x xs ih =>
    intro acc
    rw [List.foldl_cons]
    cases hmem : acc.any (fun q => q.id == x.id) with
    | true =>
      rw [dedupStep_of_present acc x hmem]
      exact (ih acc).trans (List.Sublist.append_left (List.sublist_cons_self x xs) acc)
    | false =>
      rw [dedupStep_of_absent acc x hmem]
      have h2 := ih (acc ++ [x])
      rwa [List.append_assoc, List.singleton_append] at h2

/-!
## Claims
-/

/-- C3: for every HTML input the parser's output has at most one record per
id (the projected id list is duplicate-free); the record returned for an id
is the *first* raw record produced for that id (so with two tags sharing a
`data-id`, the first occurrence's values win); the output is a subsequence
of the raw record sequence, hence preserves first-seen encounter order; and
concretely, the spec's duplicate-id page yields exactly the first tag's
record (`5.2 = 52·10⁻¹`, `-1.1 = -11·10⁻¹`). -/
theorem claim_C3 (html : String) (t : ℕ) :
    (((parsePricesHtml html t).players.map PlayerRec.id).Nodup)
    ∧ (∀ i : ℕ, (parsePricesHtml html t).players.find? (fun p => p.id == i)
        = (rawPlayers html.data).find? (fun p => p.id == i))
    ∧ List.Sublist (parsePricesHtml html t).players (rawPlayers html.data)
    ∧ (parsePricesHtml "<div data-id=\"10\" data-now=\"5.2\" data-tonight=\"-1.1\"></div><div data-id=\"10\" data-now=\"9.9\"></div>" 0).players
        = [⟨10, some (PyFloat.finite ⟨52, -1⟩), some (PyFloat.finite ⟨-11, -1⟩)⟩] := by
  refine ⟨?_, ?_, ?_, by decide⟩
  · exact nodup_foldl_dedupStep (rawPlayers html.data) [] (by simp)
  · intro i
    simpa [parsePricesHtml, dedupPlayers]
      using find?_foldl_dedupStep i (rawPlayers html.data) []
  · simpa [parsePricesHtml, dedupPlayers]
      using foldl_dedupStep_sublist (rawPlayers html.data) []

/-- C4 counterexample: the claim says two calls of the parser on identical
input yield identical *entire* outputs; but `fetched_at` is
`datetime.utcnow()` read at call time, so the same input parsed at two
different instants gives different wrapping structures. -/
theorem claim_C4_counterexample : parsePricesHtml "" 0 ≠ parsePricesHtml "" 1 := by
  decide

/-- C4 (amended): the record sequence is deterministic — identical input
strings yield identical `players` lists no matter when the calls happen —
while the wrapping structure's `fetched_at` field equals the call instant,
so the full outputs coincide exactly when the two call instants do. -/
theorem claim_C4 (html : String) (t1 t2 : ℕ) :
    (parsePricesHtml html t1).players = (parsePricesHtml html t2).players
    ∧ ((parsePricesHtml html t1).fetched_at = (parsePricesHtml html t2).fetched_at
        ↔ t1 = t2) := ⟨rfl, Iff.rfl⟩

/-- C10: `increment_request url` bumps exactly the `requests` counter of
`url`'s entry by one, leaving that entry's `api_fetches` and every other
URL's entry untouched; `increment_api_fetch url` does the symmetric thing. -/
theorem claim_C10 (st : Stats) (url u : String) :
    ((increment_request st url) url).requests = (st url).requests + 1
    ∧ ((increment_request st url) url).api_fetches = (st url).api_fetches
    ∧ (u ≠ url → increment_request st url u = st u)
    ∧ ((increment_api_fetch st url) url).api_fetches = (st url).api_fetches + 1
    ∧ ((increment_api_fetch st url) url).requests = (st url).requests
    ∧ (u ≠ url → increment_api_fetch st url u = st u) := by
  unfold increment_request increment_api_fetch
  exact ⟨by simp, by simp, fun h => by simp [h], by simp, by simp, fun h => by simp [h]⟩

/-- Witness for C10 at concrete inputs. -/
theorem claim_C10_witness :
    ((increment_request statsEmpty "a") "a").requests = (statsEmpty "a").requests + 1
    ∧ increment_request statsEmpty "a" "b" = statsEmpty "b"
    ∧ increment_api_fetch statsEmpty "a" "b" = statsEmpty "b" :=
  ⟨(claim_C10 statsEmpty "a" "b").1,
   (claim_C10 statsEmpty "a" "b").2.2.1 (by decide),
   (claim_C10 statsEmpty "a" "b").2.2.2.2.2 (by decide)⟩

/-- Concrete world for the C1 counterexample: the remote succeeds but the
cache write fails. -/
def c1Env : JsonEnv :=
  { now := 0, cacheExists := false, cacheMtime := 0, cacheContent := none,
    remote := .ok "payload", writeOk := false }

/-- C1 counterexample: the claim says a cache-write failure is swallowed by
*both* façades and the fetched payload still returned; in
`fetch_url_cached` the `json.dump` sits inside the outer `try`, so a write
failure is re-raised by the trailing `except Exception` branch — the call
errors instead of returning the payload. -/
theorem claim_C1_counterexample :
    (fetchUrlCached c1Env statsEmpty "u" "k" false 1).result
      = .error .unexpectedErr := rfl

/-- C1 (amended): in `fetch_prices_cached` a cache-write failure is
swallowed and the parse of the fetched markup is still returned (the write
outcome cannot influence the result at all); in `fetch_url_cached` a
cache-write failure after a successful remote fetch propagates as the
catch-all unexpected error and the payload is not returned. -/
theorem claim_C1 :
    (∀ (env : JsonEnv) (st : Stats) (url key : String) (d : ℕ) (doc : String),
        env.remote = RemoteJson.ok doc → env.writeOk = false →
        (fetchUrlCached env st url key true d).result = .error .unexpectedErr)
    ∧ (∀ (env : HtmlEnv) (st : Stats) (url key : String) (hrs : ℕ) (h : String),
        env.remote = RemoteHtml.ok h →
        (fetchPricesCached env st url key true hrs).result
          = .ok (parsePricesHtml h env.now)) := by
  constructor
  · intro env st url key d doc hr hw
    simp [fetchUrlCached, hr, hw]
  · intro env st url key hrs h hr
    simp [fetchPricesCached, hr]

/-- Concrete world for the C1 witness, HTML side. -/
def c1HtmlEnv : HtmlEnv :=
  { now := 5, cacheExists := true, cacheMtime := 0, cacheHtml := some "<div>",
    remote := .ok "<p>", writeOk := false }

/-- Witness for C1 at concrete inputs. -/
theorem claim_C1_witness :
    (fetchUrlCached c1Env statsEmpty "u" "k" true 1).result = .error .unexpectedErr
    ∧ (fetchPricesCached c1HtmlEnv statsEmpty "u" "k" true 12).result
        = .ok (parsePricesHtml "<p>" c1HtmlEnv.now) :=
  ⟨claim_C1.1 c1Env statsEmpty "u" "k" 1 "payload" rfl rfl,
   claim_C1.2 c1HtmlEnv statsEmpty "u" "k" 12 "<p>" rfl⟩

/-- Concrete world for the C2 counterexample: `expiry_days = 1`; the cache
file is 86399 seconds old (one second under the claimed 1-day window) but
its modification *date* is yesterday, so the day-granularity test
`(date.today() - file_mod_date).days < 1` fails. -/
def c2Env : JsonEnv :=
  { now := 129600, cacheExists := true, cacheMtime := 43201,
    cacheContent := some "cached", remote := .ok "fresh", writeOk := true }

/-- C2 counterexample: the claim's rule `is_fresh = (now - mtime) <
expiry_window` predicts a cache hit for an entry aged `window - ε`; with
the JSON variant's calendar-day comparison the entry is stale and the
remote fetch runs, returning the remote payload rather than the cached
one. -/
theorem claim_C2_counterexample :
    c2Env.now - c2Env.cacheMtime < 1 * 86400
    ∧ (fetchUrlCached c2Env statsEmpty "u" "k" false 1).didRemoteFetch = true
    ∧ (fetchUrlCached c2Env statsEmpty "u" "k" false 1).result = .ok "fresh" := by
  refine ⟨by decide, by decide, rfl⟩

/-- C2 (amended): with an existing readable cache entry and
`force_refresh = false`, the HTML variant serves from cache exactly when
`now - mtime < cache_expiry_hours * 3600` (so `window − ε` is fresh and
`window + ε` stale there), while the JSON variant serves from cache exactly
when the *calendar-day* difference of the two dates is `<
cache_expiry_days`; that day-granularity test implies `age <
cache_expiry_days·86400`, but an entry aged `window − ε` can still be
stale when a day boundary was crossed. -/
theorem claim_C2 :
    (∀ (env : HtmlEnv) (st : Stats) (url key : String) (hrs : ℕ) (s : String),
        env.cacheExists = true → env.cacheHtml = some s →
        ((fetchPricesCached env st url key false hrs).didRemoteFetch = false
          ↔ (env.now : ℤ) - (env.cacheMtime : ℤ) < (hrs : ℤ) * 3600))
    ∧ (∀ (env : JsonEnv) (st : Stats) (url key : String) (d : ℕ) (doc : String),
        env.cacheExists = true → env.cacheContent = some doc →
        ((fetchUrlCached env st url key false d).didRemoteFetch = false
          ↔ ((env.now / 86400 : ℕ) : ℤ) - ((env.cacheMtime / 86400 : ℕ) : ℤ) < (d : ℤ)))
    ∧ (∀ (now mtime d : ℕ), mtime ≤ now → jsonFresh now mtime d = true →
        now - mtime < d * 86400) := by
  refine ⟨?_, ?_, ?_⟩
  · intro env st url key hrs s hce hch
    cases hfresh : htmlFresh env.now env.cacheMtime hrs with
    | true =>
      have hyp : (env.now : ℤ) - (env.cacheMtime : ℤ) < (hrs : ℤ) * 3600 :=
        of_decide_eq_true hfresh
      simp [fetchPricesCached, hce, hch, hfresh, hyp]
    | false =>
      have hyp : ¬((env.now : ℤ) - (env.cacheMtime : ℤ) < (hrs : ℤ) * 3600) :=
        of_decide_eq_false hfresh
      cases hr : env.remote <;> simp [fetchPricesCached, hce, hch, hfresh, hyp, hr]
  · intro env st url key d doc hce hcc
    cases hfresh : jsonFresh env.now env.cacheMtime d with
    | true =>
      have hyp : ((env.now / 86400 : ℕ) : ℤ) - ((env.cacheMtime / 86400 : ℕ) : ℤ) < (d : ℤ) :=
        of_decide_eq_true hfresh
      simp [fetchUrlCached, hce, hcc, hfresh]
      omega
    | false =>
      have hyp : ¬(((env.now / 86400 : ℕ) : ℤ) - ((env.cacheMtime / 86400 : ℕ) : ℤ) < (d : ℤ)) :=
        of_decide_eq_false hfresh
      cases hr : env.remote <;> cases hw : env.writeOk <;>
        simp [fetchUrlCached, hce, hcc, hfresh, hr, hw] <;> omega
  · intro now mtime d hle hfresh
    have h1 : ((now / 86400 : ℕ) : ℤ) - ((mtime / 86400 : ℕ) : ℤ) < (d : ℤ) :=
      of_decide_eq_true hfresh
    omega

/-- Concrete fresh-cache world for the C2 witness, HTML side. -/
def c2HtmlEnv : HtmlEnv :=
  { now := 100, cacheExists := true, cacheMtime := 0, cacheHtml := some "<x>",
    remote := .ok "<y>", writeOk := true }

/-- Witness for C2 at concrete inputs. -/
theorem claim_C2_witness :
    ((fetchPricesCached c2HtmlEnv statsEmpty "u" "k" false 12).didRemoteFetch = false
      ↔ (c2HtmlEnv.now : ℤ) - (c2HtmlEnv.cacheMtime : ℤ) < (12 : ℤ) * 3600)
    ∧ ((fetchUrlCached c2Env statsEmpty "u" "k" false 1).didRemoteFetch = false
      ↔ ((c2Env.now / 86400 : ℕ) : ℤ) - ((c2Env.cacheMtime / 86400 : ℕ) : ℤ) < (1 : ℤ))
    ∧ 100 - 50 < 1 * 86400 :=
  ⟨claim_C2.1 c2HtmlEnv statsEmpty "u" "k" 12 "<x>" rfl rfl,
   claim_C2.2.1 c2Env statsEmpty "u" "k" 1 "cached" rfl rfl,
   claim_C2.2.2 100 50 1 (by decide) (by decide)⟩

/-- C5: a cache file that exists and is fresh but whose content cannot be
read or decoded behaves *exactly* like a cache miss — for each variant the
entire call result (value, stats, fetch flag) equals that of the same world
with no cache file at all — and in that situation control reaches the
remote fetch and the call succeeds when the remote fetch path succeeds. -/
theorem claim_C5 :
    (∀ (env : JsonEnv) (st : Stats) (url key : String) (f : Bool) (d : ℕ),
        env.cacheContent = none →
        fetchUrlCached env st url key f d
          = fetchUrlCached { env with cacheExists := false } st url key f d)
    ∧ (∀ (env : JsonEnv) (st : Stats) (url key : String) (d : ℕ) (doc : String),
        env.cacheContent = none → env.remote = .ok doc → env.writeOk = true →
        (fetchUrlCached env st url key false d).result = .ok doc
        ∧ (fetchUrlCached env st url key false d).didRemoteFetch = true)
    ∧ (∀ (env : HtmlEnv) (st : Stats) (url key : String) (f : Bool) (hrs : ℕ),
        env.cacheHtml = none →
        fetchPricesCached env st url key f hrs
          = fetchPricesCached { env with cacheExists := false } st url key f hrs)
    ∧ (∀ (env : HtmlEnv) (st : Stats) (url key : String) (hrs : ℕ) (h : String),
        env.cacheHtml = none → env.remote = .ok h →
        (fetchPricesCached env st url key false hrs).result
            = .ok (parsePricesHtml h env.now)
        ∧ (fetchPricesCached env st url key false hrs).didRemoteFetch = true) := by
  refine ⟨?_, ?_, ?_, ?_⟩
  · intro env st url key f d hnone
    simp [fetchUrlCached, hnone]
  · intro env st url key d doc hnone hr hw
    exact ⟨by simp [fetchUrlCached, hnone, hr, hw], by simp [fetchUrlCached, hnone, hr, hw]⟩
  · intro env st url key f hrs hnone
    simp [fetchPricesCached, hnone]
  · intro env st url key hrs h hnone hr
    exact ⟨by simp [fetchPricesCached, hnone, hr], by simp [fetchPricesCached, hnone, hr]⟩

/-- Concrete worlds for the C5 witness: fresh cache files whose contents
are unreadable, with succeeding remotes. -/
def c5Env : JsonEnv :=
  { now := 1000, cacheExists := true, cacheMtime := 1000, cacheContent := none,
    remote := .ok "doc", writeOk := true }

def c5HtmlEnv : HtmlEnv :=
  { now := 1000, cacheExists := true, cacheMtime := 1000, cacheHtml := none,
    remote := .ok "<z>", writeOk := true }

/-- Witness for C5 at concrete inputs. -/
theorem claim_C5_witness :
    fetchUrlCached c5Env statsEmpty "u" "k" false 1
      = fetchUrlCached { c5Env with cacheExists := false } statsEmpty "u" "k" false 1
    ∧ (fetchUrlCached c5Env statsEmpty "u" "k" false 1).result = .ok "doc"
    ∧ (fetchPricesCached c5HtmlEnv statsEmpty "u" "k" false 12).result
        = .ok (parsePricesHtml "<z>" c5HtmlEnv.now)
    ∧ (fetchPricesCached c5HtmlEnv statsEmpty "u" "k" false 12).didRemoteFetch = true :=
  ⟨claim_C5.1 c5Env statsEmpty "u" "k" false 1 rfl,
   (claim_C5.2.1 c5Env statsEmpty "u" "k" 1 "doc" rfl rfl rfl).1,
   (claim_C5.2.2.2 c5HtmlEnv statsEmpty "u" "k" 12 "<z>" rfl rfl).1,
   (claim_C5.2.2.2 c5HtmlEnv statsEmpty "u" "k" 12 "<z>" rfl rfl).2⟩

/-- C9: on a cache hit the HTML façade returns the re-parse of the cached
markup stamped with the *current* instant — `fetched_at` equals the call
time, not the time the markup was originally fetched — and two parses of
the same cached markup at different instants carry different `fetched_at`
values. -/
theorem claim_C9 :
    (∀ (env : HtmlEnv) (st : Stats) (url key : String) (hrs : ℕ) (s : String),
        env.cacheExists = true → env.cacheHtml = some s →
        htmlFresh env.now env.cacheMtime hrs = true →
        (fetchPricesCached env st url key false hrs).didRemoteFetch = false
        ∧ (fetchPricesCached env st url key false hrs).result
            = .ok (parsePricesHtml s env.now)
        ∧ (parsePricesHtml s env.now).fetched_at = env.now)
    ∧ (∀ (s : String) (t1 t2 : ℕ), t1 ≠ t2 →
        (parsePricesHtml s t1).fetched_at ≠ (parsePricesHtml s t2).fetched_at) := by
  constructor
  · intro env st url key hrs s hce hch hf
    refine ⟨?_, ?_, rfl⟩ <;> simp [fetchPricesCached, hce, hch, hf]
  · intro s t1 t2 hne
    simpa [parsePricesHtml] using hne

/-- Witness for C9 at concrete inputs (`c2HtmlEnv` is a fresh cache hit). -/
theorem claim_C9_witness :
    (fetchPricesCached c2HtmlEnv statsEmpty "u" "k" false 12).result
      = .ok (parsePricesHtml "<x>" c2HtmlEnv.now)
    ∧ (parsePricesHtml "<x>" c2HtmlEnv.now).fetched_at = c2HtmlEnv.now
    ∧ (parsePricesHtml "<x>" 3).fetched_at ≠ (parsePricesHtml "<x>" 4).fetched_at :=
  ⟨(claim_C9.1 c2HtmlEnv statsEmpty "u" "k" 12 "<x>" rfl rfl rfl).2.1,
   (claim_C9.1 c2HtmlEnv statsEmpty "u" "k" 12 "<x>" rfl rfl rfl).2.2,
   claim_C9.2 "<x>" 3 4 (by decide)⟩

/-!
### Sequences of façade calls (for the stats claim)
-/

/-- One façade invocation's world: the environment it runs in and its
`force_refresh` argument. -/
structure JsonCall where
  env : JsonEnv
  force : Bool
deriving DecidableEq, Repr

/-- Run a sequence of `fetch_url_cached` calls against the same URL and
cache key, threading the stats state through. -/
def runCalls (url key : String) (d : ℕ) : List JsonCall → Stats → Stats
  | [], st => st
  | c :: cs, st =>
      runCalls url key d cs (fetchUrlCached c.env st url key c.force d).stats

def resultOk : Except FetchErr String → Bool
  | .ok _ => true
  | .error _ => false

/-- Characterisation of when one `fetch_url_cached` call runs the remote
fetch path to completion (and therefore reaches `increment_api_fetch`): no
cache hit, the remote succeeds, and the cache write — which in this variant
precedes the counter bump and aborts the call on failure — succeeds. -/
def jsonApiSuccess (env : JsonEnv) (force : Bool) (d : ℕ) : Bool :=
  !(!force && env.cacheExists && jsonFresh env.now env.cacheMtime d
      && env.cacheContent.isSome)
    && (match env.remote with | .ok _ => true | _ => false)
    && env.writeOk

lemma fetchUrlCached_stats (env : JsonEnv) (st : Stats) (url key : String)
    (f : Bool) (d : ℕ) :
    (fetchUrlCached env st url key f d).stats
      = if jsonApiSuccess env f d
        then increment_api_fetch (increment_request st url) url
        else increment_request st url := by
  cases hcc : env.cacheContent with
  | none =>
    cases hr : env.remote <;> cases hw : env.writeOk <;>
      cases hhit : (!f && env.cacheExists && jsonFresh env.now env.cacheMtime d) <;>
        simp [fetchUrlCached, jsonApiSuccess, hcc, hr, hw, hhit]
  | some doc =>
    cases hhit : (!f && env.cacheExists && jsonFresh env.now env.cacheMtime d) with
    | true => simp [fetchUrlCached, jsonApiSuccess, hcc, hhit]
    | false =>
      cases hr : env.remote <;> cases hw : env.writeOk <;>
        simp [fetchUrlCached, jsonApiSuccess, hcc, hr, hw, hhit]

/-- The predicate `jsonApiSuccess` is exactly "the remote fetch path executed and the call
returned the fetched payload". -/
lemma fetchUrlCached_apiSuccess (env : JsonEnv) (st : Stats) (url key : String)
    (f : Bool) (d : ℕ) :
    ((fetchUrlCached env st url key f d).didRemoteFetch
        && resultOk (fetchUrlCached env st url key f d).result)
      = jsonApiSuccess env f d := by
  cases hcc : env.cacheContent with
  | none =>
    cases hr : env.remote <;> cases hw : env.writeOk <;>
      cases hhit : (!f && env.cacheExists && jsonFresh env.now env.cacheMtime d) <;>
        simp [fetchUrlCached, jsonApiSuccess, resultOk, hcc, hr, hw, hhit]
  | some doc =>
    cases hhit : (!f && env.cacheExists && jsonFresh env.now env.cacheMtime d) with
    | true => simp [fetchUrlCached, jsonApiSuccess, resultOk, hcc, hhit]
    | false =>
      cases hr : env.remote <;> cases hw : env.writeOk <;>
        simp [fetchUrlCached, jsonApiSuccess, resultOk, hcc, hr, hw, hhit]

/-- Running a call sequence adds the number of calls to `requests` and the
number of completed remote fetches to `api_fetches` (generalised over the
starting stats). -/
lemma runCalls_counts (url key : String) (d : ℕ) :
    ∀ (cs : List JsonCall) (st : Stats),
      ((runCalls url key d cs st) url).requests
          = (st url).requests + cs.length
      ∧ ((runCalls url key d cs st) url).api_fetches
          = (st url).api_fetches
              + cs.countP (fun c => jsonApiSuccess c.env c.force d) := by
  intro cs
  induction cs with
  | nil => intro st; simp [runCalls]
  | cons c cs ih =>
    intro st
    have hstep := fetchUrlCached_stats c.env st url key c.force d
    obtain ⟨ih1, ih2⟩ := ih (fetchUrlCached c.env st url key c.force d).stats
    rw [hstep] at ih1 ih2
    cases hs : jsonApiSuccess c.env c.force d with
    | true =>
      rw [hs] at ih1 ih2
      simp only [if_pos rfl, increment_api_fetch, increment_request, if_pos] at ih1 ih2
      constructor
      · simp only [runCalls]
        rw [hstep, hs]
        rw [if_pos rfl, ih1]
        simp
        omega
      · simp only [runCalls]
        rw [hstep, hs]
        rw [if_pos rfl, ih2, List.countP_cons, hs]
        simp
        omega
    | false =>
      rw [hs] at ih1 ih2
      simp only [Bool.false_eq_true, if_false, increment_request, if_pos] at ih1 ih2
      constructor
      · simp only [runCalls]
        rw [hstep, hs]
        rw [if_neg Bool.false_ne_true, ih1]
        simp
        omega
      · simp only [runCalls]
        rw [hstep, hs]
        rw [if_neg Bool.false_ne_true, ih2, List.countP_cons, hs]
        simp

/-- C6: starting from empty stats, after any sequence of `n` façade calls
for the same URL, the stats record for that URL shows `requests = n`
(bumped once per invocation, hit or miss, success or failure) and
`api_fetches = k` where `k` counts exactly the calls on which the remote
fetch path executed and returned the fetched payload (`k ≤ n`); the last
conjunct grounds that count in the façade's own outputs. -/
theorem claim_C6 (calls : List JsonCall) (url key : String) (d : ℕ) :
    ((runCalls url key d calls statsEmpty) url).requests = calls.length
    ∧ ((runCalls url key d calls statsEmpty) url).api_fetches
        = calls.countP (fun c => jsonApiSuccess c.env c.force d)
    ∧ calls.countP (fun c => jsonApiSuccess c.env c.force d) ≤ calls.length
    ∧ (∀ c : JsonCall, jsonApiSuccess c.env c.force d
        = ((fetchUrlCached c.env statsEmpty url key c.force d).didRemoteFetch
            && resultOk (fetchUrlCached c.env statsEmpty url key c.force d).result)) := by
  obtain ⟨h1, h2⟩ := runCalls_counts url key d calls statsEmpty
  refine ⟨?_, ?_, List.countP_le_length _, ?_⟩
  · simpa [statsEmpty] using h1
  · simpa [statsEmpty] using h2
  · intro c
    exact (fetchUrlCached_apiSuccess c.env statsEmpty url key c.force d).symm

/-- HTML with a non-numeric `data-now` in its first tag: id 1 gets
`pct_now = None` while its `data-tonight` and the whole second tag still
parse. -/
def c7Html : String := "<div data-id=1 data-now=N/A data-tonight=2.5><div data-id=2 data-now=7>"

/-- C7: the primary loop is a per-match map — each record is computed from
its own matched tag text only, so a `data-now`/`data-tonight` value that
fails numeric coercion makes exactly that field of that record `None` (the
coercion model returns `none` rather than raising, e.g. on `"N/A"`) and
every other match still contributes its record; concretely, `c7Html` yields
both records, the first with `pct_now = none` and intact `pct_tonight`. -/
theorem claim_C7 (html : String) :
    primRecords html.data = (divMatches html.data).map recordOfDiv
    ∧ (∀ m ∈ divMatches html.data,
        (recordOfDiv m).id = m.pid
        ∧ (recordOfDiv m).pct_now = (searchAttr m.tag dataNowLit).bind pyFloatChars
        ∧ (recordOfDiv m).pct_tonight
            = (searchAttr m.tag dataTonightLit).bind pyFloatChars)
    ∧ pyFloatChars "N/A".data = none
    ∧ (parsePricesHtml c7Html 0).players
        = [⟨1, none, some (PyFloat.finite ⟨25, -1⟩)⟩,
           ⟨2, some (PyFloat.finite ⟨7, 0⟩), none⟩] := by
  refine ⟨?_, fun m _ => ⟨rfl, rfl, rfl⟩, by decide, by decide⟩
  simpa using foldl_append_eq_map recordOfDiv (divMatches html.data) []

/-- Witness for C7: the first primary match of `c7Html`, taken through the
theorem's per-match clause. -/
theorem claim_C7_witness :
    (recordOfDiv ⟨"<div data-id=1 data-now=N/A data-tonight=2.5>".data, 1⟩).pct_now
      = (searchAttr "<div data-id=1 data-now=N/A data-tonight=2.5>".data dataNowLit).bind
          pyFloatChars
    ∧ (recordOfDiv ⟨"<div data-id=1 data-now=N/A data-tonight=2.5>".data, 1⟩).id = 1 :=
  ⟨((claim_C7 c7Html).2.1 ⟨"<div data-id=1 data-now=N/A data-tonight=2.5>".data, 1⟩
      (by decide)).2.1,
   ((claim_C7 c7Html).2.1 ⟨"<div data-id=1 data-now=N/A data-tonight=2.5>".data, 1⟩
      (by decide)).1⟩

/-- HTML with no `<div` opening tag at all: the primary strategy yields
nothing and the fallback finds the bare `data-id`. -/
def c8Html : String := "x data-id=3 data-now=1.5"

/-- C8: the fallback contributes exactly when the primary loop produced
zero records — with a nonempty primary result the parser output is the
dedup of the primary records alone (no merge), and with an empty one it is
the dedup of the fallback records; the fallback loop is a per-match map
whose attribute search runs over precisely the 300-character window
`html[start : start+300]` after each bare `data-id` match, with the same
coercion rule. -/
theorem claim_C8 (html : String) (t : ℕ) :
    (primRecords html.data ≠ [] →
       (parsePricesHtml html t).players = dedupPlayers (primRecords html.data))
    ∧ (primRecords html.data = [] →
       (parsePricesHtml html t).players = dedupPlayers (fbRecords html.data))
    ∧ fbRecords html.data = (fbMatches html.data).map (recordOfFb html.data)
    ∧ (∀ m ∈ fbMatches html.data,
        (recordOfFb html.data m).id = m.pid
        ∧ (recordOfFb html.data m).pct_now
            = (searchAttr ((html.data.drop m.start).take 300) dataNowLit).bind pyFloatChars
        ∧ (recordOfFb html.data m).pct_tonight
            = (searchAttr ((html.data.drop m.start).take 300) dataTonightLit).bind
                pyFloatChars) := by
  refine ⟨?_, ?_, ?_, fun m _ => ⟨rfl, rfl, rfl⟩⟩
  · intro hne
    have hE : (primRecords html.data).isEmpty = false := by
      cases hp : primRecords html.data with
      | nil => exact absurd hp hne
      | cons a l => rfl
    simp [parsePricesHtml, rawPlayers, hE]
  · intro heq
    have hE : (primRecords html.data).isEmpty = true := by rw [heq]; rfl
    simp [parsePricesHtml, rawPlayers, hE, heq]
  · simpa using foldl_append_eq_map (recordOfFb html.data) (fbMatches html.data) []

/-- Witness for C8: a fallback-only page and a primary-only page, each taken
through the corresponding implication. -/
theorem claim_C8_witness :
    (parsePricesHtml c8Html 0).players = dedupPlayers (fbRecords c8Html.data)
    ∧ (parsePricesHtml "<div data-id=4>" 0).players
        = dedupPlayers (primRecords "<div data-id=4>".data) :=
  ⟨(claim_C8 c8Html 0).2.1 (by decide),
   (claim_C8 "<div data-id=4>" 0).1 (by decide)⟩
